import Mathlib

/-!
Verification development for the `my-agent` Telegram/Claude relay.

The definitions below are a shallow embedding of the message-processing core:

* `ContentBlock`, `Message`, `MessageParam` — the Anthropic message data model
  as used by `src/services/claude.service.ts` (content blocks, stop reason,
  token usage) and by the conversation store
  (`ConversationServiceImpl`, `src/services/conversation.service.ts`).
* `toolUseLoop` / `createMessage` — the tool-use loop of
  `ClaudeServiceImpl.createMessage` (the history-backed version,
  `claude.service.ts` lines 215–350): append the user message, make the
  initial API call, then while `stop_reason === 'tool_use'` and
  `toolUseIteration < MAX_TOOL_ITERATIONS` execute the first `tool_use`
  content block, append the assistant and `tool_result` messages, and call
  the API again; afterwards append the final assistant message and extract
  the first text block (fallback `无法生成响应`).

The model backend (`client.messages.create`) is an external collaborator; it
is modeled as a function from the call index and the message list sent to the
outcome of that call, which covers every possible sequence of backend
responses since the orchestrator itself is deterministic.  Tool execution
(`McpServiceImpl.executeTool`) is likewise a parameter from tool name and
serialized input to a serialized result or a typed tool error.  Telemetry
(span annotations, `Console.log`) has no effect on control flow or state and
is not modeled, except that the `fiberFound` annotation of `handleInterrupt`
is kept as the reported lookup outcome.
-/

deriving instance DecidableEq for Except

namespace MyAgent

/-- One content block of an Anthropic message: a text block, a `tool_use`
invocation (id, name, serialized input), or a `tool_result` block
(tool_use_id it answers, serialized result). -/
inductive ContentBlock where
  | text (s : String)
  | toolUse (id name input : String)
  | toolResult (toolUseId content : String)
  deriving DecidableEq, Repr

/-- Predicate used by `result.content.find((b) => b.type === 'tool_use')`. -/
def ContentBlock.isToolUse : ContentBlock → Bool
  | .toolUse _ _ _ => true
  | _ => false

/-- Predicate used by `result.content.find((b) => b.type === 'text')`. -/
def ContentBlock.isText : ContentBlock → Bool
  | .text _ => true
  | _ => false

/-- Token usage counters reported by the backend. -/
structure Usage where
  input_tokens : Nat
  output_tokens : Nat
  deriving DecidableEq, Repr

/-- One model backend response (a model turn): ordered content blocks, a stop
reason string, and optional usage counters. -/
structure Message where
  content : List ContentBlock
  stop_reason : String
  usage : Option Usage
  deriving DecidableEq, Repr

/-- Content of a history message: either a plain string (user text) or a list
of content blocks (assistant turns, tool results). -/
inductive MessageContent where
  | str (s : String)
  | blocks (bs : List ContentBlock)
  deriving DecidableEq, Repr

/-- One entry of the conversation history (`MessageParam`). -/
structure MessageParam where
  role : String
  content : MessageContent
  deriving DecidableEq, Repr

/-- Error `ClaudeApiError` from `src/errors/index.ts` (stack field omitted). -/
structure ClaudeApiError where
  message : String
  deriving DecidableEq, Repr

/-- Error `McpToolError` from `src/errors/index.ts` (input and stack omitted). -/
structure McpToolError where
  toolName : String
  message : String
  deriving DecidableEq, Repr

/-- Errors that can abort `createMessage`: a backend failure or a tool
failure.  Both propagate uncaught out ofter loop. -/
inductive PipeError where
  | claudeApi (e : ClaudeApiError)
  | mcpTool (e : McpToolError)
  deriving DecidableEq, Repr

/-- The model backend: outcome of the i-th `client.messages.create` call of
one `createMessage` invocation, given the messages sent. -/
def Backend : Type := Nat → List MessageParam → Except ClaudeApiError Message

/-- Tool dispatch (`mcp.executeTool`): tool name and serialized input to a
serialized result, or a typed tool error. -/
def ToolExec : Type := String → String → Except McpToolError String

/-- Constant `MAX_TOOL_ITERATIONS = 10` (claude.service.ts line 247). -/
def MAX_TOOL_ITERATIONS : Nat := 10

/-- Embedding of `result.content.find((b) => b.type === 'tool_use')`. -/
def findToolUse (bs : List ContentBlock) : Option ContentBlock :=
  bs.find? ContentBlock.isToolUse

/-- Embedding of `result.content.find((b) => b.type === 'text')` followed by
`textContent && 'text' in textContent ? textContent.text : '无法生成响应'`. -/
def extractText (bs : List ContentBlock) : String :=
  match bs.find? ContentBlock.isText with
  | some (ContentBlock.text s) => s
  | _ => "无法生成响应"

/-- Record of one tool execution performed by the loop: the index of the
backend call whose response requested it, the content of that turn, the
`tool_use` block executed, and the execution outcome. -/
structure ToolExecRec where
  turnIdx : Nat
  turnContent : List ContentBlock
  block : ContentBlock
  result : Except McpToolError String
  deriving DecidableEq, Repr

/-- Observable outcome of the tool-use loop. -/
structure LoopOut where
  res : Except PipeError Message
  conv : List MessageParam
  execs : List ToolExecRec
  apiCalls : Nat
  iterations : Nat
  deriving DecidableEq, Repr

/-- The tool-use loop of `createMessage` (claude.service.ts lines 246–308).

`turnIdx` is the index of the backend call that produced `result`; `iter` is
the current value of `toolUseIteration`; `conv` is the conversation store
contents; `execs` the tool executions performed so far.  `fuel` equals
`MAX_TOOL_ITERATIONS - iter`, so the source guard
`result.stop_reason === 'tool_use' && toolUseIteration < MAX_TOOL_ITERATIONS`
becomes: exit when `fuel = 0`, otherwise test the stop reason.  Inside the
body, `toolUseIteration++` happens first; then the first `tool_use` block is
looked up (`break` when absent); the assistant turn is appended; the tool is
executed (a failure propagates, leaving the assistant turn appended); the
`tool_result` message is appended; and the backend is called again. -/
def toolUseLoop (backend : Backend) (toolExec : ToolExec) :
    Nat → Nat → Nat → Message → List MessageParam → List ToolExecRec → LoopOut
  | 0, iter, turnIdx, result, conv, execs =>
      ⟨Except.ok result, conv, execs, turnIdx + 1, iter⟩
  | fuel + 1, iter, turnIdx, result, conv, execs =>
      if result.stop_reason = "tool_use" then
        -- toolUseIteration++
        let iter' := iter + 1
        match findToolUse result.content with
        | none =>
            -- '⚠️  No tool_use block found, breaking loop'
            ⟨Except.ok result, conv, execs, turnIdx + 1, iter'⟩
        | some blk =>
            -- save assistant message (with tool_use)
            let conv1 := conv ++ [⟨"assistant", MessageContent.blocks result.content⟩]
            match blk with
            | ContentBlock.toolUse id name input =>
                match toolExec name input with
                | Except.error e =>
                    -- tool failure propagates out of handleToolUse
                    ⟨Except.error (PipeError.mcpTool e), conv1,
                      execs ++ [⟨turnIdx, result.content, blk, Except.error e⟩],
                      turnIdx + 1, iter'⟩
                | Except.ok toolResult =>
                    -- save tool_result message, re-read history, call the API again
                    let conv2 := conv1 ++
                      [⟨"user", MessageContent.blocks [ContentBlock.toolResult id toolResult]⟩]
                    let execs1 := execs ++ [⟨turnIdx, result.content, blk, Except.ok toolResult⟩]
                    match backend (turnIdx + 1) conv2 with
                    | Except.error e =>
                        ⟨Except.error (PipeError.claudeApi e), conv2, execs1, turnIdx + 2, iter'⟩
                    | Except.ok result' =>
                        toolUseLoop backend toolExec fuel iter' (turnIdx + 1) result' conv2 execs1
            | _ =>
                -- handleToolUse: 'Invalid tool use block type' (unreachable after find)
                ⟨Except.error (PipeError.claudeApi ⟨"Invalid tool use block type"⟩),
                  conv1, execs, turnIdx + 1, iter'⟩
      else
        ⟨Except.ok result, conv, execs, turnIdx + 1, iter⟩

/-- Result returned by `createMessage` (model name, a config constant, is
omitted). -/
structure ProcessedMessage where
  text : String
  usage : Option Usage
  deriving DecidableEq, Repr

/-- Observable outcome of one `createMessage` invocation: the result or
error, the final conversation store contents, the full history sent on the
initial backend call, the tool executions, the number of backend calls, and
the final `toolUseIteration` value. -/
structure CreateOut where
  res : Except PipeError ProcessedMessage
  conv : List MessageParam
  initialHistory : List MessageParam
  execs : List ToolExecRec
  apiCalls : Nat
  iterations : Nat
  deriving DecidableEq, Repr

/-- Embedding of `ClaudeServiceImpl.createMessage` (claude.service.ts lines 215–350) on a
conversation store currently holding `conv0`: append the user message, make
the initial API call with `[...history, userMessage]`, run the tool-use loop,
append the final assistant message, and extract the text response. -/
def createMessage (backend : Backend) (toolExec : ToolExec)
    (conv0 : List MessageParam) (message : String) : CreateOut :=
  let userMessage : MessageParam := ⟨"user", MessageContent.str message⟩
  let conv1 := conv0 ++ [userMessage]
  let fullHistory := conv0 ++ [userMessage]
  match backend 0 fullHistory with
  | Except.error e => ⟨Except.error (PipeError.claudeApi e), conv1, fullHistory, [], 1, 0⟩
  | Except.ok result0 =>
      let lo := toolUseLoop backend toolExec MAX_TOOL_ITERATIONS 0 0 result0 conv1 []
      match lo.res with
      | Except.error e => ⟨Except.error e, lo.conv, fullHistory, lo.execs, lo.apiCalls, lo.iterations⟩
      | Except.ok result =>
          let conv2 := lo.conv ++ [⟨"assistant", MessageContent.blocks result.content⟩]
          ⟨Except.ok ⟨extractText result.content, result.usage⟩, conv2, fullHistory,
            lo.execs, lo.apiCalls, lo.iterations⟩

/-- A tool dispatcher that always succeeds with a fixed serialized result. -/
def okTool : ToolExec := fun _ _ => Except.ok "toolOutput"

/-- Backend that answers every call with a `tool_use` turn: a `tool_use`
block followed by a text block whose text is `txt i` on the i-th call. -/
def toolUseForever (txt : Nat → String) : Backend := fun i _ =>
  Except.ok ⟨[ContentBlock.toolUse "tid" "demo" "inp", ContentBlock.text (txt i)],
    "tool_use", some ⟨1, 1⟩⟩

/-- Backend whose first response ends the turn with the given text. -/
def endTurnOnce (answer : String) : Backend := fun _ _ =>
  Except.ok ⟨[ContentBlock.text answer], "end_turn", some ⟨1, 1⟩⟩

/-! ## Shared conversation store

`ConversationServiceImpl` (conversation.service.ts) holds a single
`private messages: MessageParam[]` — the file's own header calls it
"conversation history for single-user MVP".  `createMessage` takes only the
message text, no conversation id, and the processor passes only the text on
(`this.claude.createMessage(text)` in `doProcess`), so every processed
message, whatever its chat id, reads and writes this one store.  (The
interrupt handler requires `MessageProcessorServiceImpl` to be the same
instance across webhook requests — `activeFibers` must be shared — so the
service graph, including the conversation service, is one instance for the
process lifetime.) -/

/-- The process-wide mutable state relevant to message processing: the single
conversation store's contents. -/
structure AgentState where
  conv : List MessageParam
  deriving DecidableEq, Repr

/-- Processing one inbound message for a chat id: `createMessage` reads the
shared store and leaves its appends there.  The chat id does not reach the
store (there is no per-conversation keying in the source). -/
def processMessageFor (backend : Backend) (toolExec : ToolExec)
    (st : AgentState) (chatId : Nat) (text : String) : CreateOut × AgentState :=
  let _ := chatId
  let out := createMessage backend toolExec st.conv text
  (out, ⟨out.conv⟩)

/-! ## Orchestrator and webhook handler

Embedding of `MessageProcessorServiceImpl` (the fiber-based version:
`processAndRespond`, `doProcess`, `handleInterrupt`) and of the error
handling in `server.ts`'s `/webhook` route.  Outbound Telegram operations
are recorded as a list of requested actions. -/

/-- One outbound Telegram operation requested by the orchestrator. -/
inductive NotifyAction where
  | sendWithInterruptButton (chatId : Nat) (text callbackData : String)
  | editMessage (chatId messageId : Nat) (text : String)
  | sendMessage (chatId : Nat) (text : String)
  | sendMessageWithButton (chatId : Nat) (text buttonText buttonUrl : String)
  | answerCallbackQuery (callbackQueryId : String)
  deriving DecidableEq, Repr

/-- Whether an action is an `editMessageText` request. -/
def NotifyAction.isEdit : NotifyAction → Bool
  | .editMessage _ _ _ => true
  | _ => false

/-- The tagged errors that can reach the `/webhook` route's `catchTags`
(src/errors/index.ts; `InterruptedError` in the fiber-based version carries
`chatId` and `statusMessageId`). -/
inductive ProcErr where
  | interrupted (message : String) (chatId statusMessageId : Nat)
  | claudeApi (e : ClaudeApiError)
  | mcpTool (e : McpToolError)
  | telegramApi (message : String)
  | configErr (message : String)
  | sandboxErr (message operation : String)
  | unknown (message : String)
  deriving DecidableEq, Repr

/-- Errors of the claude pipeline, as seen by the webhook handler. -/
def PipeError.toProcErr : PipeError → ProcErr
  | .claudeApi e => ProcErr.claudeApi e
  | .mcpTool e => ProcErr.mcpTool e

/-- Observable outcome of `doProcess`. -/
structure DoOut where
  actions : List NotifyAction
  res : Except ProcErr Unit
  conv : List MessageParam
  deriving DecidableEq, Repr

/-- Embedding of `MessageProcessorServiceImpl.doProcess` (fiber-based version): run
`createMessage`; on success format the cost annotation
(`response.usage ? formatCostInfo(...) : ''`), edit the status placeholder to
`✅ 处理完成`, and send the answer — with a preview button when the text
matches the CodeSandbox URL regex, plain otherwise.  `costFormat` stands for
`CostServiceImpl.formatCostInfo` (numeric string formatting over floats),
`extractUrl` for `response.text.match(urlRegex)` (first match), and
`cleanedText` for the regex-based URL stripping; the claims under analysis do
not depend on their values.  An error from `createMessage` propagates before
any Telegram operation of this function. -/
def doProcess (backend : Backend) (toolExec : ToolExec)
    (costFormat : Usage → String) (extractUrl : String → Option String)
    (cleanedText : String → String) (conv0 : List MessageParam)
    (chatId : Nat) (text : String) (statusMessageId : Nat) : DoOut :=
  let out := createMessage backend toolExec conv0 text
  match out.res with
  | Except.error e => ⟨[], Except.error e.toProcErr, out.conv⟩
  | Except.ok resp =>
      let costInfo := match resp.usage with
        | some u => costFormat u
        | none => ""
      let done := NotifyAction.editMessage chatId statusMessageId "✅ 处理完成"
      match extractUrl resp.text with
      | some previewUrl =>
          ⟨[done, NotifyAction.sendMessageWithButton chatId
              (cleanedText resp.text ++ costInfo) "🔗 打开预览" previewUrl],
            Except.ok (), out.conv⟩
      | none =>
          ⟨[done, NotifyAction.sendMessage chatId (resp.text ++ costInfo)],
            Except.ok (), out.conv⟩

/-! ### The activeFibers map (JS `Map<string, Fiber>`) -/

/-- Registry `activeFibers`: task/message id to fiber handle, with JS `Map` insertion
order; fiber handles are represented by numbers. -/
abbrev FiberMap : Type := List (String × Nat)

/-- Embedding of `Map.get`: value at the key, if present. -/
def mapGet : FiberMap → String → Option Nat
  | [], _ => none
  | (k', v) :: rest, k => if k' = k then some v else mapGet rest k

/-- Embedding of `Map.set`: replace the value if the key is present (keeping its
position), otherwise append a new entry.  Never fails. -/
def mapSet : FiberMap → String → Nat → FiberMap
  | [], k, v => [(k, v)]
  | (k', v') :: rest, k, v =>
      if k' = k then (k, v) :: rest else (k', v') :: mapSet rest k v

/-- Embedding of `Map.delete`: remove the entry with the key, if present. -/
def mapDelete : FiberMap → String → FiberMap
  | [], _ => []
  | (k', v') :: rest, k => if k' = k then rest else (k', v') :: mapDelete rest k

/-- Embedding of `this.activeFibers.set(messageId, fiber)` — the task registration step of
`processAndRespond`. -/
def registerFiber (m : FiberMap) (messageId : String) (fiber : Nat) : FiberMap :=
  mapSet m messageId fiber

/-- Observable outcome of `handleInterrupt`: the map afterwards, the
`fiberFound` span annotation (the reported lookup outcome), and the fiber
that was interrupted, if any. -/
structure InterruptOut where
  fibers : FiberMap
  fiberFound : Bool
  interruptedFiber : Option Nat
  deriving DecidableEq, Repr

/-- Embedding of `MessageProcessorServiceImpl.handleInterrupt`: look up the fiber under
the message id; if present, `Fiber.interrupt` it (the map itself is not
modified here — deletion happens in `processAndRespond` after the await);
otherwise log `⚠️  No active operation found` and annotate
`fiberFound: false`.  Both branches are built from logging and annotation
effects only, so the function is total: no error is raised. -/
def handleInterrupt (m : FiberMap) (messageId : String) : InterruptOut :=
  match mapGet m messageId with
  | some f => ⟨m, true, some f⟩
  | none => ⟨m, false, none⟩

/-- Observable outcome of `processAndRespond`. -/
structure ProcOut where
  actions : List NotifyAction
  res : Except ProcErr Unit
  conv : List MessageParam
  fibers : FiberMap
  messageId : String
  deriving DecidableEq, Repr

/-- Embedding of `MessageProcessorServiceImpl.processAndRespond` (fiber-based version):
build `messageId = chatId + '_' + Date.now()` (`nowMs` stands for
`Date.now()`), send the `⏳ 正在处理您的请求...` placeholder with the
interrupt button, register the forked fiber (`fiberHandle`) under
`messageId`, await it, and delete the registration.  `interrupted` says
whether `Fiber.await` returned an interrupted-only cause (the user cancelled
the fork); in that case the function fails with
`InterruptedError(chatId, statusMessageId)` — any partial effects of the
cancelled fiber are not modeled, as no claim depends on them.  Otherwise the
fiber's own outcome (`doProcess`) is surfaced unchanged. -/
def processAndRespond (backend : Backend) (toolExec : ToolExec)
    (costFormat : Usage → String) (extractUrl : String → Option String)
    (cleanedText : String → String) (interrupted : Bool)
    (fibers0 : FiberMap) (fiberHandle : Nat) (conv0 : List MessageParam)
    (chatId : Nat) (text : String) (nowMs : Nat) (statusMessageId : Nat) : ProcOut :=
  let messageId := Nat.repr chatId ++ "_" ++ Nat.repr nowMs
  let placeholder := NotifyAction.sendWithInterruptButton chatId
    "⏳ 正在处理您的请求..." messageId
  let fibers1 := registerFiber fibers0 messageId fiberHandle
  let fibers2 := mapDelete fibers1 messageId
  if interrupted then
    ⟨[placeholder],
      Except.error (ProcErr.interrupted "Request interrupted by user" chatId statusMessageId),
      conv0, fibers2, messageId⟩
  else
    let d := doProcess backend toolExec costFormat extractUrl cleanedText
      conv0 chatId text statusMessageId
    ⟨placeholder :: d.actions, d.res, d.conv, fibers2, messageId⟩

/-- The `operationMessages` table of the SandboxError branch in server.ts
(`operationMessages[error.operation] || error.operation`). -/
def operationDisplay (op : String) : String :=
  match op with
  | "resume" => "恢复沙箱"
  | "connect" => "连接沙箱"
  | "writeFile" => "写入文件"
  | "getUrl" => "获取预览链接"
  | "waitForPort" => "等待服务启动"
  | _ => op

/-- Outcome of the webhook's error handling: the Telegram operations it
requests and the handled effect's result. -/
structure HandlerOut where
  actions : List NotifyAction
  res : Except ProcErr Unit
  deriving DecidableEq, Repr

/-- The `Effect.catchTags`/`Effect.catchAll` wrapping of
`processAndRespond` in server.ts's `/webhook` route, given the outcome of
`processAndRespond`.  `InterruptedError` edits the status placeholder to
`❌ 操作已中断` (guarded by JS truthiness of `error.chatId &&
error.statusMessageId`); each other error category sends its apology text as
a new message to the chat.  Every branch is a caught, succeeding effect —
even the inner sends/edits are wrapped in `Effect.catchAll` — so the result
is `ok` in all cases: nothing propagates further. -/
def webhookHandle (chatId : Nat) (res : Except ProcErr Unit) : HandlerOut :=
  match res with
  | Except.ok _ => ⟨[], Except.ok ()⟩
  | Except.error (ProcErr.interrupted _ cid smid) =>
      if cid ≠ 0 ∧ smid ≠ 0 then
        ⟨[NotifyAction.editMessage cid smid "❌ 操作已中断"], Except.ok ()⟩
      else ⟨[], Except.ok ()⟩
  | Except.error (ProcErr.configErr _) =>
      ⟨[NotifyAction.sendMessage chatId "抱歉，服务器配置错误。管理员已收到通知。"], Except.ok ()⟩
  | Except.error (ProcErr.telegramApi _) =>
      ⟨[NotifyAction.sendMessage chatId "抱歉，发送消息时遇到网络问题。请稍后再试。"], Except.ok ()⟩
  | Except.error (ProcErr.claudeApi _) =>
      ⟨[NotifyAction.sendMessage chatId "抱歉，AI 服务暂时不可用。请稍后再试。"], Except.ok ()⟩
  | Except.error (ProcErr.mcpTool e) =>
      ⟨[NotifyAction.sendMessage chatId
          ("抱歉，工具执行失败：" ++ e.toolName ++ "。请稍后再试。")], Except.ok ()⟩
  | Except.error (ProcErr.sandboxErr _ op) =>
      ⟨[NotifyAction.sendMessage chatId
          ("抱歉，" ++ operationDisplay op ++ "失败。请稍后再试。")], Except.ok ()⟩
  | Except.error (ProcErr.unknown _) =>
      ⟨[NotifyAction.sendMessage chatId "抱歉，处理您的消息时出现了错误。请稍后再试。"], Except.ok ()⟩

/-! ## Conversation store aliasing model

`ConversationServiceImpl.getHistory` returns `[...this.messages]` — a fresh
array.  To state that caller-side mutation of the returned array cannot reach
the store, JS arrays are modeled as cells of a small heap addressed by
reference. -/

/-- A heap of arrays of history messages: an allocation counter and the cell
contents. -/
structure Heap where
  next : Nat
  mem : Nat → List MessageParam

/-- Contents of the array at reference `r`. -/
def Heap.read (h : Heap) (r : Nat) : List MessageParam := h.mem r

/-- Overwrite the array at reference `r`. -/
def Heap.write (h : Heap) (r : Nat) (v : List MessageParam) : Heap :=
  ⟨h.next, fun r' => if r' = r then v else h.mem r'⟩

/-- Allocate a fresh array holding `v`; returns the new heap and the fresh
reference. -/
def Heap.alloc (h : Heap) (v : List MessageParam) : Heap × Nat :=
  (⟨h.next + 1, fun r' => if r' = h.next then v else h.mem r'⟩, h.next)

/-- The empty heap. -/
def emptyHeap : Heap := ⟨0, fun _ => []⟩

/-- The conversation service's state: the reference of its
`private messages: MessageParam[]` array. -/
structure ConversationStore where
  ref : Nat
  deriving DecidableEq, Repr

/-- Constructing the service: `private messages: MessageParam[] = []`. -/
def newConversationService (h : Heap) : Heap × ConversationStore :=
  let p := h.alloc []
  (p.1, ⟨p.2⟩)

/-- Embedding of `ConversationServiceImpl.addMessage`: `this.messages.push(message)`. -/
def ConversationStore.addMessage (st : ConversationStore) (h : Heap)
    (m : MessageParam) : Heap :=
  h.write st.ref (h.read st.ref ++ [m])

/-- Embedding of `ConversationServiceImpl.getHistory`: `return [...this.messages]` — a
fresh array holding a copy of the store contents. -/
def ConversationStore.getHistory (st : ConversationStore) (h : Heap) :
    Heap × Nat :=
  h.alloc (h.read st.ref)

/-- A caller mutating a returned array in place (`arr.push(m)`). -/
def arrayPush (h : Heap) (r : Nat) (m : MessageParam) : Heap :=
  h.write r (h.read r ++ [m])

/-! ## sendChatAction (typing indicator) -/

/-- A failure of one attempt of the `sendChatAction` fetch: the
`TelegramApiError` produced by the `tryPromise` catch, or the
`TimeoutException` of `Effect.timeout('5 seconds')`. -/
inductive SendFailure where
  | apiError (message : String)
  | timeout
  deriving DecidableEq, Repr

/-- Outcomes of the successive fetch attempts (the network environment). -/
def AttemptSeq : Type := Nat → Except SendFailure Unit

/-- Embedding of `Effect.retry(Schedule.recurs(n))`: run the attempt; on failure retry, up
to `retries` more times; the last failure is the effect's failure. -/
def retryRecurs (attempts : AttemptSeq) : Nat → Nat → Except SendFailure Unit
  | idx, retries =>
      match attempts idx with
      | Except.ok _ => Except.ok ()
      | Except.error e =>
          match retries with
          | 0 => Except.error e
          | r + 1 => retryRecurs attempts (idx + 1) r

/-- Embedding of `TelegramServiceImpl.sendChatAction` (telegram.service.ts lines 90–118):
`Effect.tryPromise(fetch ...).pipe(Effect.timeout('5 seconds'),
Effect.retry(Schedule.recurs(1)))`.  The line above the pipe reads
`// Non-critical operation, catch errors locally`, but no catch combinator is
applied: the pipeline's final failure is the failure of `sendChatAction`
itself.  (The service-class variant in part_002 routes through
`callTelegramApi`, likewise without a catch.) -/
def sendChatAction (attempts : AttemptSeq) : Except SendFailure Unit :=
  retryRecurs attempts 0 1

/-- Backend whose first response requests two tools in one turn and whose
second response ends the turn. -/
def multiToolOnce : Backend := fun i _ =>
  if i = 0 then
    Except.ok ⟨[ContentBlock.toolUse "a" "tool1" "in1",
      ContentBlock.toolUse "b" "tool2" "in2"], "tool_use", some ⟨1, 1⟩⟩
  else
    Except.ok ⟨[ContentBlock.text "done"], "end_turn", some ⟨1, 1⟩⟩

/-- Backend that fails every call with a `ClaudeApiError`. -/
def failingBackend : Backend := fun _ _ =>
  Except.error ⟨"Claude API error: 500"⟩

/-! ### Store scenario: construct, append, read out, mutate the copy

The generic scenario behind the `getHistory` contract: construct the service
on an empty heap, append an arbitrary message list, call `getHistory`, then
have the caller push arbitrary messages onto the returned array. -/

/-- The freshly constructed conversation service. -/
def storeScenarioStore : ConversationStore := (newConversationService emptyHeap).2

/-- The heap right after construction. -/
def storeScenarioHeap0 : Heap := (newConversationService emptyHeap).1

/-- The heap after appending `ms` through `addMessage`, in order. -/
def storeScenarioHeapAfterAdds (ms : List MessageParam) : Heap :=
  ms.foldl (fun h m => storeScenarioStore.addMessage h m) storeScenarioHeap0

/-- The `getHistory` call after the appends: resulting heap and the
reference of the returned array. -/
def storeScenarioGet (ms : List MessageParam) : Heap × Nat :=
  storeScenarioStore.getHistory (storeScenarioHeapAfterAdds ms)

/-- The heap after the caller pushes `muts` onto the array returned by
`getHistory`. -/
def storeScenarioMutated (ms muts : List MessageParam) : Heap :=
  muts.foldl (fun h m => arrayPush h (storeScenarioGet ms).2 m) (storeScenarioGet ms).1

example :
    (createMessage (endTurnOnce "hi") okTool [] "hello").res =
      Except.ok ⟨"hi", some ⟨1, 1⟩⟩ := by decide

example :
    (createMessage (endTurnOnce "hi") okTool [] "hello").conv =
      [⟨"user", MessageContent.str "hello"⟩,
       ⟨"assistant", MessageContent.blocks [ContentBlock.text "hi"]⟩] := by decide

example :
    (createMessage (toolUseForever (fun i => "T" ++ Nat.repr i)) okTool [] "go").execs.length
      = 10 := by decide

example :
    (createMessage (toolUseForever (fun i => "T" ++ Nat.repr i)) okTool [] "go").apiCalls
      = 11 := by decide

example :
    (createMessage (toolUseForever (fun i => "T" ++ Nat.repr i)) okTool [] "go").res =
      Except.ok ⟨"T10", some ⟨1, 1⟩⟩ := by decide

/-! ## Loop invariants -/

/-- The tool-use loop performs at most `fuel` further iterations, and each
tool execution is preceded by an increment of the iteration counter. -/
theorem toolUseLoop_bounds (backend : Backend) (toolExec : ToolExec) :
    ∀ (fuel iter turnIdx : Nat) (result : Message) (conv : List MessageParam)
      (execs : List ToolExecRec),
      (toolUseLoop backend toolExec fuel iter turnIdx result conv execs).iterations ≤
        iter + fuel ∧
      (toolUseLoop backend toolExec fuel iter turnIdx result conv execs).execs.length + iter ≤
        (toolUseLoop backend toolExec fuel iter turnIdx result conv execs).iterations +
          execs.length := by
  intro fuel
  induction fuel with
  | zero =>
      intro iter turnIdx result conv execs
      constructor <;> (try simp [toolUseLoop]) <;> omega
  | succ f ih =>
      intro iter turnIdx result conv execs
      simp only [toolUseLoop]
      split
      · split
        · constructor <;> (try simp) <;> omega
        · split
          · split
            · constructor <;> (try simp) <;> omega
            · split
              · constructor <;> (try simp) <;> omega
              · rename_i x3 x2 idv name input heq2 x1 toolResult heq1 x0 result' heq
                have h := ih (iter + 1) (turnIdx + 1) result'
                  (conv ++ [⟨"assistant", MessageContent.blocks result.content⟩] ++
                    [⟨"user", MessageContent.blocks [ContentBlock.toolResult idv toolResult]⟩])
                  (execs ++ [⟨turnIdx, result.content, ContentBlock.toolUse idv name input,
                    Except.ok toolResult⟩])
                have h1 := h.1
                have h2 := h.2
                simp only [List.append_assoc, List.cons_append, List.nil_append,
                  List.length_append, List.length_cons, List.length_nil] at h1 h2 ⊢
                constructor <;> omega
          · constructor <;> (try simp) <;> omega
      · constructor <;> (try simp) <;> omega

/-- The tool-use loop only appends to the conversation store. -/
theorem toolUseLoop_conv_extension (backend : Backend) (toolExec : ToolExec) :
    ∀ (fuel iter turnIdx : Nat) (result : Message) (conv : List MessageParam)
      (execs : List ToolExecRec),
      ∃ tail, (toolUseLoop backend toolExec fuel iter turnIdx result conv execs).conv =
        conv ++ tail := by
  intro fuel
  induction fuel with
  | zero =>
      intro iter turnIdx result conv execs
      exact ⟨[], by simp [toolUseLoop]⟩
  | succ f ih =>
      intro iter turnIdx result conv execs
      simp only [toolUseLoop]
      split
      · split
        · exact ⟨[], by simp⟩
        · split
          · split
            · exact ⟨[⟨"assistant", MessageContent.blocks result.content⟩], by simp⟩
            · split
              · rename_i idv name input heq2 x1 toolResult heq1 x0 e heq
                exact ⟨[⟨"assistant", MessageContent.blocks result.content⟩,
                  ⟨"user", MessageContent.blocks [ContentBlock.toolResult idv toolResult]⟩],
                  by simp⟩
              · rename_i x3 x2 idv name input heq2 x1 toolResult heq1 x0 result' heq
                obtain ⟨tail, ht⟩ := ih (iter + 1) (turnIdx + 1) result'
                  (conv ++ [⟨"assistant", MessageContent.blocks result.content⟩] ++
                    [⟨"user", MessageContent.blocks [ContentBlock.toolResult idv toolResult]⟩])
                  (execs ++ [⟨turnIdx, result.content, ContentBlock.toolUse idv name input,
                    Except.ok toolResult⟩])
                refine ⟨[⟨"assistant", MessageContent.blocks result.content⟩,
                  ⟨"user", MessageContent.blocks [ContentBlock.toolResult idv toolResult]⟩] ++
                    tail, ?_⟩
                rw [ht]
                simp
          · exact ⟨[⟨"assistant", MessageContent.blocks result.content⟩], by simp⟩
      · exact ⟨[], by simp⟩

/-- Lemma: `createMessage` leaves the prior store contents in place and appends the
user message first. -/
theorem createMessage_conv_extension (backend : Backend) (toolExec : ToolExec)
    (conv0 : List MessageParam) (message : String) :
    ∃ tail, (createMessage backend toolExec conv0 message).conv =
      conv0 ++ ⟨"user", MessageContent.str message⟩ :: tail := by
  simp only [createMessage]
  split
  · exact ⟨[], by simp⟩
  · rename_i result0 heq
    obtain ⟨tail, ht⟩ := toolUseLoop_conv_extension backend toolExec
      MAX_TOOL_ITERATIONS 0 0 result0
      (conv0 ++ [⟨"user", MessageContent.str message⟩]) []
    split
    · exact ⟨tail, by rw [ht]; simp⟩
    · rename_i result hres
      exact ⟨tail ++ [⟨"assistant", MessageContent.blocks result.content⟩],
        by rw [ht]; simp⟩

/-- The full history sent on the initial backend call is the prior store
contents followed by the new user message. -/
theorem createMessage_initialHistory (backend : Backend) (toolExec : ToolExec)
    (conv0 : List MessageParam) (message : String) :
    (createMessage backend toolExec conv0 message).initialHistory =
      conv0 ++ [⟨"user", MessageContent.str message⟩] := by
  simp only [createMessage]
  split
  · rfl
  · split <;> rfl

/-- C1: for every sequence of model-backend responses and every tool
behavior, one `createMessage` invocation executes at most
`MAX_TOOL_ITERATIONS = 10` tool calls: the iteration counter starts at 0 and
is incremented before each tool execution, so the number of tool executions
is bounded by the final iteration count, which never exceeds 10 — the loop
exits before executing tool number 11, even if every turn has stop reason
`tool_use`. -/
theorem claim_C1_tool_call_bound (backend : Backend) (toolExec : ToolExec)
    (conv0 : List MessageParam) (message : String) :
    (createMessage backend toolExec conv0 message).execs.length ≤
      (createMessage backend toolExec conv0 message).iterations ∧
    (createMessage backend toolExec conv0 message).iterations ≤ MAX_TOOL_ITERATIONS := by
  simp only [createMessage]
  split
  · simp
  · rename_i result0 heq
    have h := toolUseLoop_bounds backend toolExec MAX_TOOL_ITERATIONS 0 0 result0
      (conv0 ++ [⟨"user", MessageContent.str message⟩]) []
    have h1 := h.1
    have h2 := h.2
    simp only [List.length_nil] at h1 h2
    split
    · constructor <;> simp <;> omega
    · constructor <;> simp <;> omega

/-- Every tool execution performed by the loop executes the first `tool_use`
block found in its turn's content (the `find` result), and the turn indices
of the executions are strictly increasing, so each turn triggers at most one
execution. -/
theorem toolUseLoop_first_only (backend : Backend) (toolExec : ToolExec) :
    ∀ (fuel iter turnIdx : Nat) (result : Message) (conv : List MessageParam)
      (execs : List ToolExecRec),
      (∀ r ∈ execs, r.turnIdx < turnIdx) →
      (∀ r ∈ execs, findToolUse r.turnContent = some r.block) →
      List.Pairwise (fun a b : ToolExecRec => a.turnIdx < b.turnIdx) execs →
      (∀ r ∈ (toolUseLoop backend toolExec fuel iter turnIdx result conv execs).execs,
          findToolUse r.turnContent = some r.block) ∧
      List.Pairwise (fun a b : ToolExecRec => a.turnIdx < b.turnIdx)
        (toolUseLoop backend toolExec fuel iter turnIdx result conv execs).execs := by
  intro fuel
  induction fuel with
  | zero =>
      intro iter turnIdx result conv execs hlt hfirst hpw
      simpa [toolUseLoop] using ⟨hfirst, hpw⟩
  | succ f ih =>
      intro iter turnIdx result conv execs hlt hfirst hpw
      simp only [toolUseLoop]
      split
      · split
        · exact ⟨hfirst, hpw⟩
        · split
          · split
            · -- tool failure: one more record, then exit
              rename_i idv name input heq2 x1 e heq1
              constructor
              · intro r hr
                rcases List.mem_append.mp hr with h | h
                · exact hfirst r h
                · simp at h
                  subst h
                  exact heq2
              · refine List.pairwise_append.mpr ⟨hpw, List.pairwise_singleton _ _, ?_⟩
                intro a ha b hb
                simp at hb
                subst hb
                exact hlt a ha
            · split
              · -- backend failure after the execution: one more record, then exit
                rename_i idv name input heq2 x1 toolResult heq1 x0 e heq
                constructor
                · intro r hr
                  rcases List.mem_append.mp hr with h | h
                  · exact hfirst r h
                  · simp at h
                    subst h
                    exact heq2
                · refine List.pairwise_append.mpr ⟨hpw, List.pairwise_singleton _ _, ?_⟩
                  intro a ha b hb
                  simp at hb
                  subst hb
                  exact hlt a ha
              · -- continue looping with the extended record list
                rename_i x3 x2 idv name input heq2 x1 toolResult heq1 x0 result' heq
                refine ih (iter + 1) (turnIdx + 1) result'
                  (conv ++ [⟨"assistant", MessageContent.blocks result.content⟩] ++
                    [⟨"user", MessageContent.blocks [ContentBlock.toolResult idv toolResult]⟩])
                  (execs ++ [⟨turnIdx, result.content, ContentBlock.toolUse idv name input,
                    Except.ok toolResult⟩]) ?_ ?_ ?_
                · intro r hr
                  rcases List.mem_append.mp hr with h | h
                  · exact Nat.lt_succ_of_lt (hlt r h)
                  · simp at h
                    subst h
                    exact Nat.lt_succ_self _
                · intro r hr
                  rcases List.mem_append.mp hr with h | h
                  · exact hfirst r h
                  · simp at h
                    subst h
                    exact heq2
                · refine List.pairwise_append.mpr ⟨hpw, List.pairwise_singleton _ _, ?_⟩
                  intro a ha b hb
                  simp at hb
                  subst hb
                  exact hlt a ha
          · exact ⟨hfirst, hpw⟩
      · exact ⟨hfirst, hpw⟩

/-- C6: for every model turn whose stop reason is `tool_use`, the loop
executes exactly the block returned by
`result.content.find((b) => b.type === 'tool_use')` — the first
tool-invocation block — and the executions' turn indices strictly increase,
so a single turn never triggers a second execution: all remaining invocation
blocks of that turn are silently ignored (not executed, not rejected, not
queued — the record list is the complete account of `executeTool` calls). -/
theorem claim_C6_first_tool_only (backend : Backend) (toolExec : ToolExec)
    (conv0 : List MessageParam) (message : String) :
    (∀ r ∈ (createMessage backend toolExec conv0 message).execs,
        findToolUse r.turnContent = some r.block) ∧
    List.Pairwise (fun a b : ToolExecRec => a.turnIdx < b.turnIdx)
      (createMessage backend toolExec conv0 message).execs := by
  simp only [createMessage]
  split
  · simp
  · rename_i result0 heq
    have h := toolUseLoop_first_only backend toolExec MAX_TOOL_ITERATIONS 0 0 result0
      (conv0 ++ [⟨"user", MessageContent.str message⟩]) []
      (by simp) (by simp) (by simp)
    split
    · exact h
    · exact h

/-- C6 witness: in a turn carrying two tool invocations (`multiToolOnce`),
the executed block is the first one. -/
theorem claim_C6_first_tool_only_witness :
    findToolUse [ContentBlock.toolUse "a" "tool1" "in1",
        ContentBlock.toolUse "b" "tool2" "in2"] =
      some (ContentBlock.toolUse "a" "tool1" "in1") :=
  (claim_C6_first_tool_only multiToolOnce okTool [] "list files").1
    ⟨0, [ContentBlock.toolUse "a" "tool1" "in1", ContentBlock.toolUse "b" "tool2" "in2"],
      ContentBlock.toolUse "a" "tool1" "in1", Except.ok "toolOutput"⟩ (by decide)

/-- C2 (amended): if the backend answers every call with stop reason
`tool_use` (turn `i` carrying a tool invocation and the text `txt i`), then
exactly 10 tool executions occur, the backend is called 11 times — after the
10th tool execution one final (11th) response is requested, whose `tool_use`
stop reason is no longer honored — and the final answer text is drawn from
that 11th turn's content (call index 10), not from the 10th turn's. -/
theorem claim_C2_tool_limit_final_turn (txt : Nat → String) :
    (createMessage (toolUseForever txt) okTool [] "go").execs.length = 10 ∧
    (createMessage (toolUseForever txt) okTool [] "go").apiCalls = 11 ∧
    (createMessage (toolUseForever txt) okTool [] "go").res =
      Except.ok ⟨txt 10, some ⟨1, 1⟩⟩ :=
  ⟨rfl, rfl, rfl⟩

/-- C2 counterexample to the claim as stated: with 11 consecutive `tool_use`
turns whose texts are `T0`…`T10`, exactly 10 tool executions occur, but the
backend is called an 11th time (`apiCalls = 11`, so the 11th model response
is issued), and the final answer is `T10` — the 11th turn's text (call index
10) — not `T9`, the 10th turn's. -/
theorem claim_C2_final_turn_counterexample :
    (createMessage (toolUseForever (fun i => "T" ++ Nat.repr i)) okTool [] "go").execs.length
        = 10 ∧
    (createMessage (toolUseForever (fun i => "T" ++ Nat.repr i)) okTool [] "go").apiCalls
        = 11 ∧
    (createMessage (toolUseForever (fun i => "T" ++ Nat.repr i)) okTool [] "go").res =
      Except.ok ⟨"T10", some ⟨1, 1⟩⟩ ∧
    "T10" ≠ "T9" :=
  ⟨rfl, rfl, rfl, by decide⟩

/-- C3 (amended): conversation history is NOT isolated per conversation id:
one `ConversationServiceImpl` store backs all chats (single-user MVP), so
after a message is processed for one chat id, that message is contained in
the history sent to the backend when processing any later message, for any
(in particular a different) chat id. -/
theorem claim_C3_shared_history (b1 b2 : Backend) (t1 t2 : ToolExec)
    (st : AgentState) (c1 c2 : Nat) (m1 m2 : String) :
    (⟨"user", MessageContent.str m1⟩ : MessageParam) ∈
      ((processMessageFor b2 t2 (processMessageFor b1 t1 st c1 m1).2 c2 m2).1).initialHistory := by
  obtain ⟨tail, ht⟩ := createMessage_conv_extension b1 t1 st.conv m1
  simp only [processMessageFor]
  rw [createMessage_initialHistory]
  rw [ht]
  simp

/-- C3 counterexample to the claim as stated: a user message processed for
conversation id 1 is visible in the history used for processing conversation
id 2's message (the ids are distinct). -/
theorem claim_C3_isolation_counterexample :
    (⟨"user", MessageContent.str "first-chat-message"⟩ : MessageParam) ∈
      ((processMessageFor (endTurnOnce "answer-2") okTool
        (processMessageFor (endTurnOnce "answer-1") okTool ⟨[]⟩ 1 "first-chat-message").2
        2 "second-chat-message").1).initialHistory ∧
    (1 : Nat) ≠ 2 := by
  exact ⟨by decide, by decide⟩

/-- C4: when the awaited fiber's outcome is interruption-only (the forked
work was cancelled), `processAndRespond` surfaces an `InterruptedError`
carrying the chat id and status message id, and the webhook's
`InterruptedError` branch edits the status placeholder to the cancellation
notice `❌ 操作已中断` and yields a handled, succeeding effect — the
interruption is not propagated further as an error.  (server.ts guards the
edit by JS truthiness of the ids, hence the nonzero hypotheses.) -/
theorem claim_C4_interrupt_cancellation_notice (backend : Backend) (toolExec : ToolExec)
    (costFormat : Usage → String) (extractUrl : String → Option String)
    (cleanedText : String → String) (fibers0 : FiberMap) (fiberHandle : Nat)
    (conv0 : List MessageParam) (chatId : Nat) (text : String) (nowMs : Nat)
    (statusMessageId : Nat) (hc : chatId ≠ 0) (hs : statusMessageId ≠ 0) :
    (processAndRespond backend toolExec costFormat extractUrl cleanedText true
        fibers0 fiberHandle conv0 chatId text nowMs statusMessageId).res =
      Except.error (ProcErr.interrupted "Request interrupted by user" chatId statusMessageId) ∧
    webhookHandle chatId
        (processAndRespond backend toolExec costFormat extractUrl cleanedText true
          fibers0 fiberHandle conv0 chatId text nowMs statusMessageId).res =
      ⟨[NotifyAction.editMessage chatId statusMessageId "❌ 操作已中断"], Except.ok ()⟩ := by
  constructor
  · rfl
  · simp [processAndRespond, webhookHandle, hc, hs]

/-- C4 witness at chat id 5, status message id 77. -/
theorem claim_C4_interrupt_cancellation_notice_witness :
    (processAndRespond (endTurnOnce "x") okTool (fun _ => "") (fun _ => none)
        (fun s => s) true [] 9 [] 5 "hello" 100 77).res =
      Except.error (ProcErr.interrupted "Request interrupted by user" 5 77) ∧
    webhookHandle 5
        (processAndRespond (endTurnOnce "x") okTool (fun _ => "") (fun _ => none)
          (fun s => s) true [] 9 [] 5 "hello" 100 77).res =
      ⟨[NotifyAction.editMessage 5 77 "❌ 操作已中断"], Except.ok ()⟩ :=
  claim_C4_interrupt_cancellation_notice (endTurnOnce "x") okTool (fun _ => "")
    (fun _ => none) (fun s => s) [] 9 [] 5 "hello" 100 77
    (by decide) (by decide)

/-- C5 (amended): if the first backend call fails with a backend error, the
outcome of `processAndRespond` is `Failed(ClaudeApiError)`, the conversation
store holds nothing beyond the initial user message, the pipeline performed
no Telegram operation after the placeholder send (in particular no edit of
the status placeholder), and the webhook's `ClaudeApiError` branch sends the
apology `抱歉，AI 服务暂时不可用。请稍后再试。` as a NEW message — the status
placeholder is not edited by the error handler (this is where the claim as
stated fails). -/
theorem claim_C5_backend_failure_behavior (backend : Backend) (toolExec : ToolExec)
    (costFormat : Usage → String) (extractUrl : String → Option String)
    (cleanedText : String → String) (fibers0 : FiberMap) (fiberHandle : Nat)
    (conv0 : List MessageParam) (chatId : Nat) (text : String) (nowMs : Nat)
    (statusMessageId : Nat) (e : ClaudeApiError)
    (hb : backend 0 (conv0 ++ [⟨"user", MessageContent.str text⟩]) = Except.error e) :
    (processAndRespond backend toolExec costFormat extractUrl cleanedText false
        fibers0 fiberHandle conv0 chatId text nowMs statusMessageId).res =
      Except.error (ProcErr.claudeApi e) ∧
    (processAndRespond backend toolExec costFormat extractUrl cleanedText false
        fibers0 fiberHandle conv0 chatId text nowMs statusMessageId).conv =
      conv0 ++ [⟨"user", MessageContent.str text⟩] ∧
    (processAndRespond backend toolExec costFormat extractUrl cleanedText false
        fibers0 fiberHandle conv0 chatId text nowMs statusMessageId).actions =
      [NotifyAction.sendWithInterruptButton chatId "⏳ 正在处理您的请求..."
        (Nat.repr chatId ++ "_" ++ Nat.repr nowMs)] ∧
    webhookHandle chatId
        (processAndRespond backend toolExec costFormat extractUrl cleanedText false
          fibers0 fiberHandle conv0 chatId text nowMs statusMessageId).res =
      ⟨[NotifyAction.sendMessage chatId "抱歉，AI 服务暂时不可用。请稍后再试。"],
        Except.ok ()⟩ := by
  refine ⟨?_, ?_, ?_, ?_⟩ <;>
    simp [processAndRespond, doProcess, createMessage, hb, webhookHandle,
      PipeError.toProcErr]

/-- C5 witness: the always-failing backend at chat id 5, status message id
77. -/
theorem claim_C5_backend_failure_behavior_witness :
    (processAndRespond failingBackend okTool (fun _ => "") (fun _ => none)
        (fun s => s) false [] 9 [] 5 "hello" 100 77).res =
      Except.error (ProcErr.claudeApi ⟨"Claude API error: 500"⟩) ∧
    (processAndRespond failingBackend okTool (fun _ => "") (fun _ => none)
        (fun s => s) false [] 9 [] 5 "hello" 100 77).conv =
      [] ++ [⟨"user", MessageContent.str "hello"⟩] ∧
    (processAndRespond failingBackend okTool (fun _ => "") (fun _ => none)
        (fun s => s) false [] 9 [] 5 "hello" 100 77).actions =
      [NotifyAction.sendWithInterruptButton 5 "⏳ 正在处理您的请求..."
        (Nat.repr 5 ++ "_" ++ Nat.repr 100)] ∧
    webhookHandle 5
        (processAndRespond failingBackend okTool (fun _ => "") (fun _ => none)
          (fun s => s) false [] 9 [] 5 "hello" 100 77).res =
      ⟨[NotifyAction.sendMessage 5 "抱歉，AI 服务暂时不可用。请稍后再试。"],
        Except.ok ()⟩ :=
  claim_C5_backend_failure_behavior failingBackend okTool (fun _ => "")
    (fun _ => none) (fun s => s) [] 9 [] 5 "hello" 100 77
    ⟨"Claude API error: 500"⟩ rfl

/-- C5 counterexample to the claim as stated: on a first-call backend error
the orchestrator's error-category handler performs exactly one Telegram
operation — a plain `sendMessage` of the apology — and neither it nor the
pipeline performs any `editMessageText`: the status placeholder is never
edited to the apology text, contrary to the claim. -/
theorem claim_C5_handler_does_not_edit :
    (webhookHandle 5 (processAndRespond failingBackend okTool (fun _ => "")
        (fun _ => none) (fun s => s) false [] 9 [] 5 "hello" 100 77).res).actions =
      [NotifyAction.sendMessage 5 "抱歉，AI 服务暂时不可用。请稍后再试。"] ∧
    ((webhookHandle 5 (processAndRespond failingBackend okTool (fun _ => "")
        (fun _ => none) (fun s => s) false [] 9 [] 5 "hello" 100 77).res).actions.any
      NotifyAction.isEdit) = false ∧
    ((processAndRespond failingBackend okTool (fun _ => "")
        (fun _ => none) (fun s => s) false [] 9 [] 5 "hello" 100 77).actions.any
      NotifyAction.isEdit) = false := by
  refine ⟨by decide, by decide, by decide⟩

/-! ## Heap lemmas for the store model -/

/-- Reading a cell just written. -/
theorem Heap.read_write_self (h : Heap) (r : Nat) (v : List MessageParam) :
    (h.write r v).read r = v := by
  simp [Heap.read, Heap.write]

/-- Writing one cell leaves the others unchanged. -/
theorem Heap.read_write_ne (h : Heap) (r r' : Nat) (v : List MessageParam)
    (hne : r' ≠ r) : (h.write r v).read r' = h.read r' := by
  simp [Heap.read, Heap.write, hne]

/-- Writing allocates nothing. -/
theorem Heap.next_write (h : Heap) (r : Nat) (v : List MessageParam) :
    (h.write r v).next = h.next := rfl

/-- Reading the freshly allocated cell. -/
theorem Heap.read_alloc_self (h : Heap) (v : List MessageParam) :
    (h.alloc v).1.read (h.alloc v).2 = v := by
  simp [Heap.alloc, Heap.read]

/-- Allocation leaves existing cells unchanged. -/
theorem Heap.read_alloc_ne (h : Heap) (v : List MessageParam) (r' : Nat)
    (hne : r' ≠ h.next) : (h.alloc v).1.read r' = h.read r' := by
  simp [Heap.alloc, Heap.read, hne]

/-- Appending messages through `addMessage` appends to the store's array in
order. -/
theorem foldl_addMessage_read (st : ConversationStore) :
    ∀ (ms : List MessageParam) (h : Heap),
      (ms.foldl (fun h m => st.addMessage h m) h).read st.ref =
        h.read st.ref ++ ms := by
  intro ms
  induction ms with
  | nil => intro h; simp
  | cons m rest ih =>
      intro h
      simp only [List.foldl_cons]
      rw [ih]
      simp [ConversationStore.addMessage, Heap.read_write_self]

/-- Lemma: `addMessage` allocates nothing. -/
theorem foldl_addMessage_next (st : ConversationStore) :
    ∀ (ms : List MessageParam) (h : Heap),
      (ms.foldl (fun h m => st.addMessage h m) h).next = h.next := by
  intro ms
  induction ms with
  | nil => intro h; rfl
  | cons m rest ih =>
      intro h
      simp only [List.foldl_cons]
      rw [ih]
      rfl

/-- Pushes on one array never change a different array. -/
theorem foldl_arrayPush_read_ne (r : Nat) :
    ∀ (ms : List MessageParam) (h : Heap) (r' : Nat), r' ≠ r →
      (ms.foldl (fun h m => arrayPush h r m) h).read r' = h.read r' := by
  intro ms
  induction ms with
  | nil => intro h r' _; rfl
  | cons m rest ih =>
      intro h r' hne
      simp only [List.foldl_cons]
      rw [ih _ _ hne]
      exact Heap.read_write_ne _ _ _ _ hne

/-- C7: after any sequence of `addMessage` calls, `getHistory` returns an
array listing exactly the appended messages in strict insertion order; and
because `getHistory` returns `[...this.messages]` — a fresh array — any
sequence of caller-side pushes on the returned array leaves the store's
internal array unchanged. -/
theorem claim_C7_history_order_and_copy (ms muts : List MessageParam) :
    (storeScenarioGet ms).1.read (storeScenarioGet ms).2 = ms ∧
    (storeScenarioMutated ms muts).read storeScenarioStore.ref = ms := by
  have hbase : storeScenarioHeap0.read storeScenarioStore.ref = [] := rfl
  have hread : (storeScenarioHeapAfterAdds ms).read storeScenarioStore.ref = ms := by
    unfold storeScenarioHeapAfterAdds
    rw [foldl_addMessage_read, hbase]
    simp
  have hnext : (storeScenarioHeapAfterAdds ms).next = 1 := by
    unfold storeScenarioHeapAfterAdds
    rw [foldl_addMessage_next]
    rfl
  have href : storeScenarioStore.ref = 0 := rfl
  constructor
  · show ((storeScenarioHeapAfterAdds ms).alloc
        ((storeScenarioHeapAfterAdds ms).read storeScenarioStore.ref)).1.read
      ((storeScenarioHeapAfterAdds ms).alloc
        ((storeScenarioHeapAfterAdds ms).read storeScenarioStore.ref)).2 = ms
    rw [Heap.read_alloc_self, hread]
  · unfold storeScenarioMutated
    rw [foldl_arrayPush_read_ne]
    · show ((storeScenarioHeapAfterAdds ms).alloc
          ((storeScenarioHeapAfterAdds ms).read storeScenarioStore.ref)).1.read
        storeScenarioStore.ref = ms
      rw [Heap.read_alloc_ne, hread]
      rw [href, hnext]
      decide
    · show storeScenarioStore.ref ≠ (storeScenarioGet ms).2
      have h2 : (storeScenarioGet ms).2 = (storeScenarioHeapAfterAdds ms).next := rfl
      rw [href, h2, hnext]
      decide

/-! ## Fiber map lemmas -/

/-- After `Map.set`, the key maps to the new value. -/
theorem mapGet_mapSet_self :
    ∀ (m : FiberMap) (k : String) (v : Nat), mapGet (mapSet m k v) k = some v := by
  intro m
  induction m with
  | nil => intro k v; simp [mapSet, mapGet]
  | cons p rest ih =>
      intro k v
      by_cases h : p.1 = k
      · simp [mapSet, h, mapGet]
      · simp [mapSet, h, mapGet, ih]

/-- The keys after `Map.set` are the old keys plus possibly the new key. -/
theorem mem_keys_mapSet :
    ∀ (m : FiberMap) (k : String) (v : Nat) (a : String),
      a ∈ (mapSet m k v).map Prod.fst ↔ a ∈ m.map Prod.fst ∨ a = k := by
  intro m
  induction m with
  | nil => intro k v a; simp [mapSet]
  | cons p rest ih =>
      intro k v a
      by_cases h : p.1 = k
      · subst h
        simp [mapSet]
        tauto
      · simp [mapSet, h, ih]
        tauto

/-- Lemma: `Map.set` preserves key uniqueness. -/
theorem nodup_keys_mapSet :
    ∀ (m : FiberMap) (k : String) (v : Nat),
      (m.map Prod.fst).Nodup → ((mapSet m k v).map Prod.fst).Nodup := by
  intro m
  induction m with
  | nil => intro k v _; simp [mapSet]
  | cons p rest ih =>
      intro k v h
      simp only [List.map_cons, List.nodup_cons] at h
      by_cases hk : p.1 = k
      · subst hk
        simpa [mapSet, List.nodup_cons] using h
      · simp only [mapSet, if_neg hk, List.map_cons, List.nodup_cons]
        refine ⟨?_, ih k v h.2⟩
        intro hmem
        rcases (mem_keys_mapSet rest k v p.1).mp hmem with h1 | h1
        · exact h.1 h1
        · exact hk h1

/-- C8 (amended): registering a handle under a task id never fails —
`Map.set` silently replaces any handle already registered under the id (the
source has no `DuplicateTask` error, and no failure channel at all here) —
and key uniqueness is preserved, so at most one handle is registered per task
id at any time. -/
theorem claim_C8_register_replaces (m : FiberMap) (k : String) (v : Nat)
    (h : (m.map Prod.fst).Nodup) :
    mapGet (registerFiber m k v) k = some v ∧
    ((registerFiber m k v).map Prod.fst).Nodup :=
  ⟨mapGet_mapSet_self m k v, nodup_keys_mapSet m k v h⟩

/-- C8 witness: re-registering id `7_1000` replaces handle 1 by handle 2. -/
theorem claim_C8_register_replaces_witness :
    mapGet (registerFiber [("7_1000", 1)] "7_1000" 2) "7_1000" = some 2 ∧
    ((registerFiber [("7_1000", 1)] "7_1000" 2).map Prod.fst).Nodup :=
  claim_C8_register_replaces [("7_1000", 1)] "7_1000" 2 (by decide)

/-- C8 counterexample to the claim as stated: registering under the already
registered task id `7_1000` does not fail with `DuplicateTask` — the
operation returns the updated map, with the previous handle silently
replaced. -/
theorem claim_C8_no_duplicate_failure :
    registerFiber (registerFiber [] "7_1000" 1) "7_1000" 2 = [("7_1000", 2)] ∧
    mapGet (registerFiber (registerFiber [] "7_1000" 1) "7_1000" 2) "7_1000" = some 2 := by
  exact ⟨by decide, by decide⟩

/-- C9: requesting cancellation for a message id with no registered fiber is
a no-op: the map is unchanged, the lookup outcome reported (the `fiberFound`
annotation) is `false`, and nothing is interrupted.  The not-found branch of
`handleInterrupt` consists of logging and annotation only, so no error is
raised — the embedding is a total function. -/
theorem claim_C9_cancel_without_task (m : FiberMap) (messageId : String)
    (h : mapGet m messageId = none) :
    handleInterrupt m messageId = ⟨m, false, none⟩ := by
  simp [handleInterrupt, h]

/-- C9 witness: cancelling on an empty registry. -/
theorem claim_C9_cancel_without_task_witness :
    handleInterrupt [] "42_1000" = ⟨[], false, none⟩ :=
  claim_C9_cancel_without_task [] "42_1000" rfl

/-- C10: the typing-indicator send does NOT swallow its final failure.  If
every fetch attempt fails, `sendChatAction`'s one retry
(`Schedule.recurs(1)`) is exhausted and the failure is the result of
`sendChatAction` itself — it propagates to the caller (the source has no
catch combinator, its `catch errors locally` comment notwithstanding).  A
failure on the first attempt only is recovered by the retry. -/
theorem claim_C10_typing_failure_propagates :
    sendChatAction (fun _ => Except.error (SendFailure.apiError "fetch failed")) =
      Except.error (SendFailure.apiError "fetch failed") ∧
    sendChatAction (fun i => if i = 0 then Except.error SendFailure.timeout
      else Except.ok ()) = Except.ok () :=
  ⟨rfl, rfl⟩

end MyAgent
